import Mathlib

/-!
Shallow embedding of `scripts/data_ingestion.py`: the cleaning, schema
mapping, batched insertion, and verification stages of the ingestion
pipeline, together with theorems settling the specification claims.
-/

namespace DataIngestion

/-- A cell of a data frame: missing (NaN/NaT/None), a raw unparsed string,
a parsed datetime (abstract tick encoding), or a parsed number. -/
inductive Cell where
  | missing : Cell
  | raw : String → Cell
  | dtv : Nat → Cell
  | numv : Int → Cell
deriving DecidableEq, Repr

/-- A destination record: column name / cell pairs, as produced by
`df.to_dict(orient='records')`. -/
abbrev Rec := List (String × Cell)

/-- Cell of a row at a position, with a default for out-of-range access. -/
def getAt {α : Type} (d : α) : List α → Nat → α
  | [], _ => d
  | x :: _, 0 => x
  | _ :: xs, n + 1 => getAt d xs n

/-- Replace the cell at a position; out-of-range writes leave the row
unchanged. -/
def setAt {α : Type} : List α → Nat → α → List α
  | [], _, _ => []
  | _ :: xs, 0, y => y :: xs
  | x :: xs, n + 1, y => x :: setAt xs n y

/-- Index of the first occurrence of a column name. -/
def idxOf? (c : String) : List String → Option Nat
  | [] => none
  | x :: xs => if x = c then some 0 else (idxOf? c xs).map (· + 1)

/-- A pandas-style data frame: a list of column names and rows of cells
aligned positionally with the columns. -/
structure Frame where
  cols : List String
  rows : List (List Cell)
deriving DecidableEq, Repr

/-- Model of the external datetime parser used by `pd.to_datetime`:
accepts strings shaped `YYYY-MM-DDTHH:MM` and encodes the digits as a
number; everything else fails to parse. -/
def parseDt (s : String) : Option Nat :=
  match s.toList with
  | [y1, y2, y3, y4, a, m1, m2, b, d1, d2, t, h1, h2, c, n1, n2] =>
    if y1.isDigit && y2.isDigit && y3.isDigit && y4.isDigit && a == '-' &&
        m1.isDigit && m2.isDigit && b == '-' && d1.isDigit && d2.isDigit &&
        t == 'T' && h1.isDigit && h2.isDigit && c == ':' && n1.isDigit &&
        n2.isDigit then
      some (([y1, y2, y3, y4, m1, m2, d1, d2, h1, h2, n1, n2]).foldl
        (fun acc ch => acc * 10 + (ch.toNat - 48)) 0)
    else none
  | _ => none

/-- Model of the external numeric parser used by `pd.to_numeric`. -/
def parseNum (s : String) : Option Int :=
  s.toInt?

/-- One cell under `pd.to_datetime(col, errors='coerce')`: unparseable
values become missing. -/
def toDatetimeCell : Cell → Cell
  | .raw s => match parseDt s with
    | some t => .dtv t
    | none => .missing
  | .dtv t => .dtv t
  | _ => .missing

/-- One cell under `pd.to_numeric(col, errors='coerce')`: unparseable
values become missing. -/
def toNumericCell : Cell → Cell
  | .raw s => match parseNum s with
    | some v => .numv v
    | none => .missing
  | .numv v => .numv v
  | _ => .missing

/-- The test `col.fillna(0) >= 0` on one cell: missing counts as 0, so it
passes; after `to_numeric` the cell is numeric or missing. -/
def cellNonNeg : Cell → Bool
  | .numv v => 0 ≤ v
  | .missing => true
  | _ => false

/-- The pattern `if col in df.columns: df[col] = transform(df[col])`:
apply a cell transform down one column when the column exists. -/
def Frame.mapCol (f : Frame) (c : String) (g : Cell → Cell) : Frame :=
  match idxOf? c f.cols with
  | none => f
  | some i => { f with rows := f.rows.map (fun r => setAt r i (g (getAt .missing r i))) }

/-- The cell of a row under a column name, given the frame's column list. -/
def atIdx (cols : List String) (c : String) (r : List Cell) : Cell :=
  match idxOf? c cols with
  | some i => getAt .missing r i
  | none => .missing

/-- `df.dropna(subset=..., how='any')`: raises KeyError when a subset
column is absent, otherwise keeps the rows with no missing subset cell. -/
def Frame.dropnaAny (f : Frame) (subset : List String) : Except String Frame :=
  if subset.all (fun c => (idxOf? c f.cols).isSome) then
    .ok { f with rows := f.rows.filter (fun r =>
      subset.all (fun c => !(atIdx f.cols c r == Cell.missing))) }
  else
    .error "KeyError: dropna subset not in columns"

/-- Column lookup `df[c]` as an index, raising KeyError when absent. -/
def Frame.getColE (f : Frame) (c : String) : Except String Nat :=
  match idxOf? c f.cols with
  | some i => .ok i
  | none => .error ("KeyError: " ++ c)

/-- The numeric columns converted by `clean_chunk`. -/
def num_cols : List String :=
  ["passenger_count", "trip_distance", "fare_amount", "tip_amount", "total_amount"]

/-- `clean_chunk`: parse pickup/dropoff datetimes and numeric columns when
present, drop rows with a missing pickup or dropoff datetime, then drop
rows where fare_amount, trip_distance or passenger_count (missing read as
0) is negative.  The datetime drop and the sign filter index their columns
unconditionally, so a chunk lacking one of them raises (KeyError). -/
def clean_chunk (df : Frame) : Except String Frame := do
  let df1 := (df.mapCol "pickup_datetime" toDatetimeCell).mapCol "dropoff_datetime" toDatetimeCell
  let df2 := num_cols.foldl (fun d c => d.mapCol c toNumericCell) df1
  let df3 ← df2.dropnaAny ["pickup_datetime", "dropoff_datetime"]
  let fi ← df3.getColE "fare_amount"
  let ti ← df3.getColE "trip_distance"
  let pi ← df3.getColE "passenger_count"
  .ok { df3 with rows := df3.rows.filter (fun r =>
    cellNonNeg (getAt .missing r fi) && cellNonNeg (getAt .missing r ti) &&
      cellNonNeg (getAt .missing r pi)) }

/-- The conditional rename table built at lines 81-87 of the script; a
rename with keys absent from the frame is a no-op, so the conditionals
collapse into one fixed table. -/
def col_map : List (String × String) :=
  [("lpep_pickup_datetime", "pickup_datetime"),
   ("lpep_dropoff_datetime", "dropoff_datetime"),
   ("PULocationID", "PULocationID")]

/-- The destination schema allow-list (line 90 of the script). -/
def allowed : List String :=
  ["vendorid", "vendor_id", "pickup_datetime", "dropoff_datetime",
   "passenger_count", "trip_distance", "rate_code", "store_and_fwd_flag",
   "PULocationID", "DOLocationID", "payment_type", "fare_amount", "extra",
   "mta_tax", "tip_amount", "tolls_amount", "total_amount"]

/-- The vendor-name normalisation table (line 94 of the script). -/
def vendor_map : List (String × String) :=
  [("vendorid", "vendor_id"), ("vendor", "vendor_id"), ("VendorID", "vendor_id")]

/-- `df.rename(columns=m)`: map each column name through the table,
keeping names the table does not mention. -/
def renameCols (f : Frame) (m : List (String × String)) : Frame :=
  { f with cols := f.cols.map (fun c => ((m.lookup c).getD c)) }

/-- `df[present]`: keep the named columns, in the given order. -/
def Frame.select (f : Frame) (cs : List String) : Frame :=
  { cols := cs,
    rows := f.rows.map (fun r => cs.map (fun c => atIdx f.cols c r)) }

/-- The schema-mapping steps of `chunk_and_insert` (lines 80-96): rename
the lpep datetime variants, keep only allow-listed columns in frame
order, then normalise the vendor column names. -/
def schema_map (chunk : Frame) : Frame :=
  let chunk1 := renameCols chunk col_map
  let present := chunk1.cols.filter (fun c => allowed.contains c)
  let df := chunk1.select present
  renameCols df vendor_map

/-- Result of the per-chunk insertion loop: committed-row count, the
committed records, the sizes of the committed sub-batches in order, and
whether the loop finished so that `cursor.close(); conn.close()` ran. -/
structure InsOut where
  inserted : Nat
  committed : List Rec
  commits : List Nat
  closed : Bool
deriving DecidableEq, Repr

/-- The `for j in range(0, len(records), batch_size)` loop with its
surrounding try/except: each sub-batch either commits (extending the
committed rows and the count) or raises, which aborts the whole loop
before `conn.close()` is reached.  `failsAt j` says whether the store
rejects the sub-batch starting at offset `j`.  The fuel argument is the
record count; one record is consumed per step when `bs > 0`, and a step
Python would not take (step 0 raises ValueError there) stops the loop. -/
def insertLoop (failsAt : Nat → Bool) (bs : Nat) : Nat → Nat → List Rec → InsOut
  | _, _, [] => ⟨0, [], [], true⟩
  | 0, _, _ :: _ => ⟨0, [], [], false⟩
  | fuel + 1, j, r :: rs =>
    if failsAt j then ⟨0, [], [], false⟩
    else
      let batch := (r :: rs).take bs
      let rest := insertLoop failsAt bs fuel (j + bs) ((r :: rs).drop bs)
      ⟨batch.length + rest.inserted, batch ++ rest.committed,
        batch.length :: rest.commits, rest.closed⟩

/-- The insertion loop of `chunk_and_insert` over a chunk's records. -/
def insertBatches (failsAt : Nat → Bool) (bs : Nat) (recs : List Rec) : InsOut :=
  insertLoop failsAt bs recs.length 0 recs

/-- Observable side effects of a chunk: the skip log line, the store
connection lifecycle, sub-batch commits, and the insert-failure path. -/
inductive Ev where
  | logSkip : Nat → Ev
  | connOpen : Nat → Ev
  | commit : Nat → Nat → Ev
  | connClose : Nat → Ev
  | insertError : Nat → Ev
  | rollback : Nat → Ev
deriving DecidableEq, Repr

/-- Outcome of one chunk: rows inserted, records now in the destination
table, and the side-effect trace. -/
structure ChunkOut where
  inserted : Nat
  newRecs : List Rec
  events : List Ev
deriving DecidableEq, Repr

/-- One iteration of the chunk loop in `chunk_and_insert`: clean, skip
when cleaning removed every row, otherwise schema-map, build the records
and run the sub-batch insertion loop.  On loop success the connection is
closed; on a sub-batch failure the error is logged and the connection
rolled back, but never closed (the close calls sit inside the try). -/
def processChunk (failsAt : Nat → Bool) (bs i : Nat) (chunk : Frame) :
    Except String ChunkOut := do
  let cleaned ← clean_chunk chunk
  if cleaned.rows.length = 0 then
    .ok ⟨0, [], [.logSkip i]⟩
  else
    let df := schema_map cleaned
    let keys := df.cols
    let records := df.rows.map (fun r => keys.zip r)
    let res := insertBatches failsAt bs records
    .ok ⟨res.inserted, res.committed,
      .connOpen i :: (res.commits.map (Ev.commit i)) ++
        (if res.closed then [.connClose i] else [.insertError i, .rollback i])⟩

/-- A whole run of the chunk loop: the returned total (or the propagated
exception), the destination-table contents, and the event trace. -/
structure RunResult where
  result : Except String Nat
  table : List Rec
  events : List Ev
deriving Repr

/-- The chunk loop of `chunk_and_insert`, from chunk index `i`.  Insert
failures are recovered inside `processChunk`; only a cleaning exception
propagates and aborts the run, keeping the rows already committed. -/
def chunkGo (fails : Nat → Nat → Bool) (bs : Nat) : Nat → List Frame → RunResult
  | _, [] => ⟨.ok 0, [], []⟩
  | i, c :: cs =>
    match processChunk (fails i) bs i c with
    | .error e => ⟨.error e, [], []⟩
    | .ok out =>
      let rest := chunkGo fails bs (i + 1) cs
      ⟨rest.result.map (fun t => out.inserted + t),
        out.newRecs ++ rest.table, out.events ++ rest.events⟩

/-- `chunk_and_insert` over the stream of chunks read from the CSV;
`fails i j` says whether the store rejects chunk `i`'s sub-batch at
record offset `j`. -/
def chunk_and_insert (fails : Nat → Nat → Bool) (bs : Nat) (chunks : List Frame) :
    RunResult :=
  chunkGo fails bs 0 chunks

/-- `verify_counts_and_aggregates`: two read-only queries whose outcomes
are supplied by the store; the first failure propagates. -/
def verify_counts_and_aggregates (countQ : Except String Nat)
    (aggQ : Except String (List (Nat × Int))) :
    Except String (Nat × List (Nat × Int)) := do
  let cnt ← countQ
  let sample ← aggQ
  .ok (cnt, sample)

/-- What `main` leaves behind: its result (total inserted, count query,
sample aggregate — or the uncaught exception) and the destination table. -/
structure MainOut where
  result : Except String (Nat × Nat × List (Nat × Int))
  table : List Rec
deriving Repr

/-- The ingestion-then-verification flow of `main`: verification runs
after the load; a verification exception propagates uncaught (main has no
handler around it), leaving the committed table untouched. -/
def mainRun (fails : Nat → Nat → Bool) (bs : Nat) (chunks : List Frame)
    (countQ : Except String Nat) (aggQ : Except String (List (Nat × Int))) :
    MainOut :=
  let run := chunk_and_insert fails bs chunks
  match run.result with
  | .error e => ⟨.error e, run.table⟩
  | .ok total =>
    match verify_counts_and_aggregates countQ aggQ with
    | .error e => ⟨.error e, run.table⟩
    | .ok (cnt, sample) => ⟨.ok (total, cnt, sample), run.table⟩

/-- Sizes of the committed sub-batches recorded in an event trace. -/
def commitSizes (evs : List Ev) : List Nat :=
  evs.filterMap (fun e => match e with
    | .commit _ n => some n
    | _ => none)

/-- The canonical destination column names: the allow-list after vendor
normalisation. -/
def canonicalAllowed : List String :=
  ["vendor_id", "pickup_datetime", "dropoff_datetime", "passenger_count",
   "trip_distance", "rate_code", "store_and_fwd_flag", "PULocationID",
   "DOLocationID", "payment_type", "fare_amount", "extra", "mta_tax",
   "tip_amount", "tolls_amount", "total_amount"]

/-- Column layout used by the concrete scenario chunks. -/
def cols5 : List String :=
  ["fare_amount", "trip_distance", "passenger_count", "pickup_datetime",
   "dropoff_datetime"]

/-- The three-row scenario chunk of the spec, with exactly the four
fields it lists (no passenger_count column). -/
def c4origChunk : Frame :=
  ⟨["fare_amount", "trip_distance", "pickup_datetime", "dropoff_datetime"],
   [[.numv (-5), .numv 2, .raw "2021-01-01T00:00", .raw "2021-01-01T00:10"],
    [.numv 10, .numv 3, .raw "bad-date", .raw "2021-01-01T00:10"],
    [.numv 12, .numv 1, .raw "2021-01-01T01:00", .raw "2021-01-01T01:05"]]⟩

/-- The scenario chunk extended with a passenger_count column (value 1 in
every row), so that the cleaning filter can index it. -/
def c4fixedChunk : Frame :=
  ⟨cols5,
   [[.numv (-5), .numv 2, .numv 1, .raw "2021-01-01T00:00", .raw "2021-01-01T00:10"],
    [.numv 10, .numv 3, .numv 1, .raw "bad-date", .raw "2021-01-01T00:10"],
    [.numv 12, .numv 1, .numv 1, .raw "2021-01-01T01:00", .raw "2021-01-01T01:05"]]⟩

/-- A one-row chunk whose tip_amount is negative while every validated
field is fine. -/
def tipChunk : Frame :=
  ⟨cols5 ++ ["tip_amount"],
   [[.numv 12, .numv 1, .numv 1, .raw "2021-01-01T01:00",
     .raw "2021-01-01T01:05", .numv (-3)]]⟩

/-- A two-row chunk of valid records, for sub-batch experiments. -/
def twoRowChunk : Frame :=
  ⟨cols5,
   [[.numv 12, .numv 1, .numv 1, .raw "2021-01-01T01:00", .raw "2021-01-01T01:05"],
    [.numv 7, .numv 2, .numv 1, .raw "2021-01-01T02:00", .raw "2021-01-01T02:05"]]⟩

/-- A chunk whose only column is the 'VendorID' naming variant. -/
def vendorChunk : Frame := ⟨["VendorID"], [[.numv 2]]⟩

/-- A chunk whose single row has a negative fare, so cleaning removes
every row. -/
def negFareChunk : Frame :=
  ⟨cols5,
   [[.numv (-1), .numv 1, .numv 1, .raw "2021-01-01T01:00", .raw "2021-01-01T01:05"]]⟩

/-- A store that accepts every sub-batch. -/
def noFail : Nat → Nat → Bool := fun _ _ => false

/-- A store that rejects exactly the first sub-batch of every chunk. -/
def failFirst : Nat → Nat → Bool := fun _ j => j == 0

/-- A store that rejects every sub-batch. -/
def failAll : Nat → Nat → Bool := fun _ _ => true

/-- A chunk whose vendor column uses the lowercase 'vendorid' variant. -/
def vendoridChunk : Frame := ⟨["vendorid"], [[.numv 1]]⟩

/-- A per-chunk store behavior rejecting only the sub-batch at offset 0. -/
def failAt0 : Nat → Bool := fun j => j == 0

/-- The cleaned form of `twoRowChunk`. -/
def twoRowCleaned : Frame :=
  ⟨cols5,
   [[.numv 12, .numv 1, .numv 1, .dtv 202101010100, .dtv 202101010105],
    [.numv 7, .numv 2, .numv 1, .dtv 202101010200, .dtv 202101010205]]⟩

/-- The destination records built from `twoRowChunk`. -/
def twoRowRecs : List Rec :=
  [[("fare_amount", .numv 12), ("trip_distance", .numv 1),
    ("passenger_count", .numv 1), ("pickup_datetime", .dtv 202101010100),
    ("dropoff_datetime", .dtv 202101010105)],
   [("fare_amount", .numv 7), ("trip_distance", .numv 2),
    ("passenger_count", .numv 1), ("pickup_datetime", .dtv 202101010200),
    ("dropoff_datetime", .dtv 202101010205)]]

/-- The chunk outcome of `twoRowChunk` when every sub-batch commits. -/
def twoRowOut : ChunkOut :=
  ⟨2, twoRowRecs, [.connOpen 0, .commit 0 2, .connClose 0]⟩

/-- The row-level effect of `Frame.mapCol`, for a fixed column list. -/
def colFn (cols : List String) (c : String) (g : Cell → Cell) (r : List Cell) :
    List Cell :=
  match idxOf? c cols with
  | some i => setAt r i (g (getAt .missing r i))
  | none => r

/-- The composite row-level effect of the seven conditional column
conversions at the head of `clean_chunk`. -/
def cleanRowFn (cols : List String) (r : List Cell) : List Cell :=
  colFn cols "total_amount" toNumericCell
    (colFn cols "tip_amount" toNumericCell
      (colFn cols "fare_amount" toNumericCell
        (colFn cols "trip_distance" toNumericCell
          (colFn cols "passenger_count" toNumericCell
            (colFn cols "dropoff_datetime" toDatetimeCell
              (colFn cols "pickup_datetime" toDatetimeCell r))))))

theorem getAt_setAt_self {α : Type} (d : α) (l : List α) (i : Nat) (x : α) :
    getAt d (setAt l i x) i = x ∨ getAt d (setAt l i x) i = d := by
  induction l generalizing i with
  | nil => right; cases i <;> rfl
  | cons a l ih =>
    cases i with
    | zero => left; rfl
    | succ n => simpa [setAt, getAt] using ih n

theorem getAt_setAt_other {α : Type} (d : α) (l : List α) (i j : Nat) (x : α)
    (h : i ≠ j) : getAt d (setAt l j x) i = getAt d l i := by
  induction l generalizing i j with
  | nil => rfl
  | cons a l ih =>
    cases j with
    | zero =>
      cases i with
      | zero => exact absurd rfl h
      | succ n => rfl
    | succ m =>
      cases i with
      | zero => rfl
      | succ n => simpa [setAt, getAt] using ih n m (by omega)

theorem idxOf?_eq_none_iff (c : String) (l : List String) :
    idxOf? c l = none ↔ c ∉ l := by
  induction l with
  | nil => simp [idxOf?]
  | cons x xs ih =>
    by_cases hx : x = c
    · subst hx; simp [idxOf?]
    · simp [idxOf?, hx, ih, Option.map_eq_none']
      exact fun h => Ne.symm hx

theorem idxOf?_getAt (d : String) (c : String) (l : List String) (i : Nat)
    (h : idxOf? c l = some i) : getAt d l i = c := by
  induction l generalizing i with
  | nil => simp [idxOf?] at h
  | cons x xs ih =>
    by_cases hx : x = c
    · subst hx
      simp [idxOf?] at h
      subst h; rfl
    · simp [idxOf?, hx, Option.map_eq_some'] at h
      obtain ⟨i', hi', rfl⟩ := h
      simpa [getAt] using ih i' hi'

theorem idxOf?_ne (c c' : String) (l : List String) (i j : Nat)
    (hcc : c ≠ c') (h1 : idxOf? c l = some i) (h2 : idxOf? c' l = some j) :
    i ≠ j := by
  intro he
  subst he
  exact hcc ((idxOf?_getAt "" c l i h1).symm.trans (idxOf?_getAt "" c' l i h2))

theorem mapCol_cols (f : Frame) (c : String) (g : Cell → Cell) :
    (f.mapCol c g).cols = f.cols := by
  unfold Frame.mapCol
  cases idxOf? c f.cols <;> rfl

theorem mapCol_rows (f : Frame) (c : String) (g : Cell → Cell) :
    (f.mapCol c g).rows = f.rows.map (colFn f.cols c g) := by
  unfold Frame.mapCol
  cases h : idxOf? c f.cols with
  | none =>
    show f.rows = _
    rw [show colFn f.cols c g = fun r => r from funext (fun r => by simp [colFn, h])]
    exact (List.map_id' f.rows).symm
  | some i => simp [colFn, h]

theorem atIdx_colFn_other (cols : List String) (c c' : String) (g : Cell → Cell)
    (r : List Cell) (h : c ≠ c') :
    atIdx cols c' (colFn cols c g r) = atIdx cols c' r := by
  unfold atIdx colFn
  cases h1 : idxOf? c cols with
  | none => rfl
  | some i =>
    cases h2 : idxOf? c' cols with
    | none => rfl
    | some j =>
      exact getAt_setAt_other _ r j i _ (fun he => idxOf?_ne c c' cols i j h h1 h2 he.symm)

theorem atIdx_colFn_self (cols : List String) (c : String) (g : Cell → Cell)
    (r : List Cell) :
    atIdx cols c (colFn cols c g r) = .missing ∨
      ∃ x, atIdx cols c (colFn cols c g r) = g x := by
  unfold atIdx colFn
  cases h : idxOf? c cols with
  | none => left; rfl
  | some i =>
    rcases getAt_setAt_self Cell.missing r i (g (getAt .missing r i)) with h2 | h2
    · right; exact ⟨_, h2⟩
    · left; exact h2

theorem toDatetimeCell_range (x : Cell) :
    toDatetimeCell x = .missing ∨ ∃ t, toDatetimeCell x = .dtv t := by
  cases x with
  | raw s =>
    cases h : parseDt s with
    | none => left; simp [toDatetimeCell, h]
    | some t => right; exact ⟨t, by simp [toDatetimeCell, h]⟩
  | dtv t => right; exact ⟨t, rfl⟩
  | missing => left; rfl
  | numv v => left; rfl

theorem toNumericCell_range (x : Cell) :
    toNumericCell x = .missing ∨ ∃ v, toNumericCell x = .numv v := by
  cases x with
  | raw s =>
    cases h : parseNum s with
    | none => left; simp [toNumericCell, h]
    | some v => right; exact ⟨v, by simp [toNumericCell, h]⟩
  | numv v => right; exact ⟨v, rfl⟩
  | missing => left; rfl
  | dtv t => left; rfl

theorem cellNonNeg_eq_true (x : Cell) :
    cellNonNeg x = true ↔ (x = .missing ∨ ∃ v : Int, 0 ≤ v ∧ x = .numv v) := by
  cases x <;> simp [cellNonNeg]

theorem idxOf?_isSome_iff (c : String) (l : List String) :
    (idxOf? c l).isSome = true ↔ c ∈ l := by
  rw [Option.isSome_iff_ne_none]
  constructor
  · intro h
    by_contra hm
    exact h ((idxOf?_eq_none_iff c l).2 hm)
  · intro h hn
    exact (idxOf?_eq_none_iff c l).1 hn h

theorem convert_cols (df : Frame) :
    (num_cols.foldl (fun d c => d.mapCol c toNumericCell)
      ((df.mapCol "pickup_datetime" toDatetimeCell).mapCol "dropoff_datetime"
        toDatetimeCell)).cols = df.cols := by
  simp [num_cols, List.foldl, mapCol_cols]

theorem convert_rows (df : Frame) :
    (num_cols.foldl (fun d c => d.mapCol c toNumericCell)
      ((df.mapCol "pickup_datetime" toDatetimeCell).mapCol "dropoff_datetime"
        toDatetimeCell)).rows = df.rows.map (cleanRowFn df.cols) := by
  simp [num_cols, List.foldl, mapCol_rows, mapCol_cols, List.map_map,
    cleanRowFn, Function.comp]

theorem dtRange_at_self (cols : List String) (c : String) (r : List Cell) :
    atIdx cols c (colFn cols c toDatetimeCell r) = .missing ∨
      ∃ t, atIdx cols c (colFn cols c toDatetimeCell r) = .dtv t := by
  rcases atIdx_colFn_self cols c toDatetimeCell r with h | ⟨x, h⟩
  · left; exact h
  · rcases toDatetimeCell_range x with h2 | ⟨t, h2⟩
    · left; rw [h, h2]
    · right; exact ⟨t, by rw [h, h2]⟩

theorem numRange_at_self (cols : List String) (c : String) (r : List Cell) :
    atIdx cols c (colFn cols c toNumericCell r) = .missing ∨
      ∃ v, atIdx cols c (colFn cols c toNumericCell r) = .numv v := by
  rcases atIdx_colFn_self cols c toNumericCell r with h | ⟨x, h⟩
  · left; exact h
  · rcases toNumericCell_range x with h2 | ⟨v, h2⟩
    · left; rw [h, h2]
    · right; exact ⟨v, by rw [h, h2]⟩

theorem cleanRowFn_pickup (cols : List String) (r : List Cell) :
    atIdx cols "pickup_datetime" (cleanRowFn cols r) = .missing ∨
      ∃ t, atIdx cols "pickup_datetime" (cleanRowFn cols r) = .dtv t := by
  unfold cleanRowFn
  rw [atIdx_colFn_other _ _ _ _ _ (by decide), atIdx_colFn_other _ _ _ _ _ (by decide),
    atIdx_colFn_other _ _ _ _ _ (by decide), atIdx_colFn_other _ _ _ _ _ (by decide),
    atIdx_colFn_other _ _ _ _ _ (by decide), atIdx_colFn_other _ _ _ _ _ (by decide)]
  exact dtRange_at_self cols "pickup_datetime" r

theorem cleanRowFn_dropoff (cols : List String) (r : List Cell) :
    atIdx cols "dropoff_datetime" (cleanRowFn cols r) = .missing ∨
      ∃ t, atIdx cols "dropoff_datetime" (cleanRowFn cols r) = .dtv t := by
  unfold cleanRowFn
  rw [atIdx_colFn_other _ _ _ _ _ (by decide), atIdx_colFn_other _ _ _ _ _ (by decide),
    atIdx_colFn_other _ _ _ _ _ (by decide), atIdx_colFn_other _ _ _ _ _ (by decide),
    atIdx_colFn_other _ _ _ _ _ (by decide)]
  exact dtRange_at_self cols "dropoff_datetime" _

theorem cleanRowFn_numeric (cols : List String) (r : List Cell) :
    ∀ c ∈ num_cols,
      atIdx cols c (cleanRowFn cols r) = .missing ∨
        ∃ v, atIdx cols c (cleanRowFn cols r) = .numv v := by
  intro c hc
  unfold cleanRowFn
  simp only [num_cols, List.mem_cons, List.not_mem_nil, or_false] at hc
  rcases hc with rfl | rfl | rfl | rfl | rfl
  · rw [atIdx_colFn_other _ _ _ _ _ (by decide), atIdx_colFn_other _ _ _ _ _ (by decide),
      atIdx_colFn_other _ _ _ _ _ (by decide), atIdx_colFn_other _ _ _ _ _ (by decide)]
    exact numRange_at_self _ _ _
  · rw [atIdx_colFn_other _ _ _ _ _ (by decide), atIdx_colFn_other _ _ _ _ _ (by decide),
      atIdx_colFn_other _ _ _ _ _ (by decide)]
    exact numRange_at_self _ _ _
  · rw [atIdx_colFn_other _ _ _ _ _ (by decide), atIdx_colFn_other _ _ _ _ _ (by decide)]
    exact numRange_at_self _ _ _
  · rw [atIdx_colFn_other _ _ _ _ _ (by decide)]
    exact numRange_at_self _ _ _
  · exact numRange_at_self _ _ _

theorem dropnaAny_ok_iff (f : Frame) (subset : List String) (g : Frame) :
    f.dropnaAny subset = .ok g ↔
      (subset.all (fun c => (idxOf? c f.cols).isSome) = true ∧
        g = ⟨f.cols, f.rows.filter (fun r =>
          subset.all (fun c => !(atIdx f.cols c r == Cell.missing)))⟩) := by
  unfold Frame.dropnaAny
  split
  · next hcond => simp [hcond, eq_comm]
  · next hcond => simp [hcond]

theorem getColE_ok_iff (f : Frame) (c : String) (i : Nat) :
    f.getColE c = .ok i ↔ idxOf? c f.cols = some i := by
  unfold Frame.getColE
  cases h : idxOf? c f.cols <;> simp

theorem getColE_error_of_not_mem (f : Frame) (c : String) (h : c ∉ f.cols) :
    f.getColE c = .error ("KeyError: " ++ c) := by
  unfold Frame.getColE
  rw [(idxOf?_eq_none_iff c f.cols).2 h]

theorem clean_chunk_ok_destruct (df df' : Frame) (h : clean_chunk df = .ok df') :
    ∃ fi ti pci,
      "pickup_datetime" ∈ df.cols ∧
      "dropoff_datetime" ∈ df.cols ∧
      idxOf? "fare_amount" df.cols = some fi ∧
      idxOf? "trip_distance" df.cols = some ti ∧
      idxOf? "passenger_count" df.cols = some pci ∧
      df'.cols = df.cols ∧
      df'.rows = ((df.rows.map (cleanRowFn df.cols)).filter
          (fun r => (["pickup_datetime", "dropoff_datetime"] : List String).all
            (fun c => !(atIdx df.cols c r == Cell.missing)))).filter
        (fun r => cellNonNeg (getAt .missing r fi) && cellNonNeg (getAt .missing r ti) &&
          cellNonNeg (getAt .missing r pci)) := by
  unfold clean_chunk at h
  dsimp only at h
  cases hd : (num_cols.foldl (fun d c => d.mapCol c toNumericCell)
      ((df.mapCol "pickup_datetime" toDatetimeCell).mapCol "dropoff_datetime"
        toDatetimeCell)).dropnaAny ["pickup_datetime", "dropoff_datetime"] with
  | error e => rw [hd] at h; simp [Bind.bind, Except.bind] at h
  | ok df3 =>
    rw [hd] at h
    simp only [Bind.bind, Except.bind] at h
    rw [dropnaAny_ok_iff] at hd
    obtain ⟨hcond, hd3⟩ := hd
    rw [convert_cols df] at hcond
    simp only [List.all_cons, List.all_nil, Bool.and_true, Bool.and_eq_true,
      idxOf?_isSome_iff] at hcond
    obtain ⟨hpum, hdom⟩ := hcond
    have hc3 : df3.cols = df.cols := by rw [hd3]; exact convert_cols df
    have hr3 : df3.rows = (df.rows.map (cleanRowFn df.cols)).filter
        (fun r => (["pickup_datetime", "dropoff_datetime"] : List String).all
          (fun c => !(atIdx df.cols c r == Cell.missing))) := by
      rw [hd3]
      simp only [convert_rows df, convert_cols df]
    cases hf : df3.getColE "fare_amount" with
    | error e => rw [hf] at h; simp at h
    | ok fi =>
      rw [hf] at h
      cases ht : df3.getColE "trip_distance" with
      | error e => rw [ht] at h; simp at h
      | ok ti =>
        rw [ht] at h
        cases hp : df3.getColE "passenger_count" with
        | error e => rw [hp] at h; simp at h
        | ok pci =>
          rw [hp] at h
          simp only [Except.ok.injEq] at h
          refine ⟨fi, ti, pci, hpum, hdom, ?_, ?_, ?_, ?_, ?_⟩
          · rw [← hc3]; exact (getColE_ok_iff df3 _ fi).1 hf
          · rw [← hc3]; exact (getColE_ok_iff df3 _ ti).1 ht
          · rw [← hc3]; exact (getColE_ok_iff df3 _ pci).1 hp
          · rw [← h]; exact hc3
          · rw [← h]
            show df3.rows.filter _ = _
            rw [hr3]

theorem atIdx_eq_getAt (cols : List String) (c : String) (i : Nat) (r : List Cell)
    (h : idxOf? c cols = some i) : atIdx cols c r = getAt .missing r i := by
  unfold atIdx
  rw [h]

/-- C8: for every chunk on which cleaning succeeds, the cleaned row count
is at most the original row count — cleaning only drops rows. -/
theorem cleaning_never_adds_rows (df df' : Frame) (h : clean_chunk df = .ok df') :
    df'.rows.length ≤ df.rows.length := by
  obtain ⟨fi, ti, pci, -, -, -, -, -, -, hrows⟩ := clean_chunk_ok_destruct df df' h
  rw [hrows]
  calc (((df.rows.map (cleanRowFn df.cols)).filter _).filter _).length
      ≤ ((df.rows.map (cleanRowFn df.cols)).filter _).length :=
        List.length_filter_le _ _
    _ ≤ (df.rows.map (cleanRowFn df.cols)).length := List.length_filter_le _ _
    _ = df.rows.length := List.length_map _ _

/-- C8 witness: the scenario chunk with a passenger_count column cleans
from three rows down to one. -/
theorem cleaning_never_adds_rows_witness :
    (Frame.mk cols5
      [[.numv 12, .numv 1, .numv 1, .dtv 202101010100, .dtv 202101010105]]).rows.length ≤
      c4fixedChunk.rows.length :=
  cleaning_never_adds_rows c4fixedChunk _ rfl

/-- C3 counterexample: a row whose tip_amount is -3 but whose validated
fields are all fine survives cleaning, so a CleanedRow can carry a
negative tip_amount, contradicting the claim that every numeric field of
a CleanedRow is absent or ≥ 0. -/
theorem negative_tip_survives_cleaning_cex :
    ∃ d, clean_chunk tipChunk = Except.ok d ∧ d.rows ≠ [] ∧
      atIdx d.cols "tip_amount" (d.rows.getD 0 []) = Cell.numv (-3) :=
  ⟨⟨cols5 ++ ["tip_amount"],
    [[.numv 12, .numv 1, .numv 1, .dtv 202101010100, .dtv 202101010105, .numv (-3)]]⟩,
    rfl, by decide, rfl⟩

/-- C3 (amended): every cleaned row has parsed pickup and dropoff
timestamps; fare_amount, trip_distance and passenger_count are each
missing or a parsed number ≥ 0; every converted numeric field, including
tip_amount and total_amount, is missing or a parsed number — but the
latter two are not sign-checked and may be negative. -/
theorem cleaned_row_invariant (df df' : Frame) (h : clean_chunk df = .ok df') :
    ∀ r ∈ df'.rows,
      (∃ t, atIdx df'.cols "pickup_datetime" r = .dtv t) ∧
      (∃ t, atIdx df'.cols "dropoff_datetime" r = .dtv t) ∧
      (∀ c ∈ (["fare_amount", "trip_distance", "passenger_count"] : List String),
        atIdx df'.cols c r = .missing ∨ ∃ v : Int, 0 ≤ v ∧ atIdx df'.cols c r = .numv v) ∧
      (∀ c ∈ num_cols, atIdx df'.cols c r = .missing ∨ ∃ v : Int, atIdx df'.cols c r = .numv v) := by
  obtain ⟨fi, ti, pci, -, -, hfi, hti, hpci, hcols, hrows⟩ := clean_chunk_ok_destruct df df' h
  intro r hr
  rw [hrows] at hr
  rw [List.mem_filter] at hr
  obtain ⟨hr1, hnn⟩ := hr
  rw [List.mem_filter] at hr1
  obtain ⟨hr2, hdn⟩ := hr1
  rw [List.mem_map] at hr2
  obtain ⟨r0, -, rfl⟩ := hr2
  rw [hcols]
  simp only [List.all_cons, List.all_nil, Bool.and_true, Bool.and_eq_true,
    Bool.not_eq_eq_eq_not, Bool.not_true, beq_eq_false_iff_ne, ne_eq] at hdn
  obtain ⟨hpu, hdo⟩ := hdn
  simp only [Bool.and_eq_true] at hnn
  obtain ⟨⟨hf, ht⟩, hp⟩ := hnn
  refine ⟨?_, ?_, ?_, cleanRowFn_numeric df.cols r0⟩
  · rcases cleanRowFn_pickup df.cols r0 with h1 | h1
    · exact absurd h1 hpu
    · exact h1
  · rcases cleanRowFn_dropoff df.cols r0 with h1 | h1
    · exact absurd h1 hdo
    · exact h1
  · intro c hc
    simp only [List.mem_cons, List.not_mem_nil, or_false] at hc
    rcases hc with rfl | rfl | rfl
    · rw [atIdx_eq_getAt df.cols _ fi _ hfi]
      exact (cellNonNeg_eq_true _).1 hf |>.imp id (fun ⟨v, hv, he⟩ => ⟨v, hv, he⟩)
    · rw [atIdx_eq_getAt df.cols _ ti _ hti]
      exact (cellNonNeg_eq_true _).1 ht |>.imp id (fun ⟨v, hv, he⟩ => ⟨v, hv, he⟩)
    · rw [atIdx_eq_getAt df.cols _ pci _ hpci]
      exact (cellNonNeg_eq_true _).1 hp |>.imp id (fun ⟨v, hv, he⟩ => ⟨v, hv, he⟩)

/-- C3 (amended) witness: the invariant evaluated on the concrete cleaned
row of the negative-tip chunk. -/
theorem cleaned_row_invariant_witness :
    (∃ t, atIdx (cols5 ++ ["tip_amount"]) "pickup_datetime"
      [Cell.numv 12, Cell.numv 1, Cell.numv 1, Cell.dtv 202101010100,
        Cell.dtv 202101010105, Cell.numv (-3)] = .dtv t) ∧
    (∃ t, atIdx (cols5 ++ ["tip_amount"]) "dropoff_datetime"
      [Cell.numv 12, Cell.numv 1, Cell.numv 1, Cell.dtv 202101010100,
        Cell.dtv 202101010105, Cell.numv (-3)] = .dtv t) ∧
    (∀ c ∈ (["fare_amount", "trip_distance", "passenger_count"] : List String),
      atIdx (cols5 ++ ["tip_amount"]) c
        [Cell.numv 12, Cell.numv 1, Cell.numv 1, Cell.dtv 202101010100,
          Cell.dtv 202101010105, Cell.numv (-3)] = .missing ∨
        ∃ v : Int, 0 ≤ v ∧ atIdx (cols5 ++ ["tip_amount"]) c
          [Cell.numv 12, Cell.numv 1, Cell.numv 1, Cell.dtv 202101010100,
            Cell.dtv 202101010105, Cell.numv (-3)] = .numv v) ∧
    (∀ c ∈ num_cols,
      atIdx (cols5 ++ ["tip_amount"]) c
        [Cell.numv 12, Cell.numv 1, Cell.numv 1, Cell.dtv 202101010100,
          Cell.dtv 202101010105, Cell.numv (-3)] = .missing ∨
        ∃ v : Int, atIdx (cols5 ++ ["tip_amount"]) c
          [Cell.numv 12, Cell.numv 1, Cell.numv 1, Cell.dtv 202101010100,
            Cell.dtv 202101010105, Cell.numv (-3)] = .numv v) :=
  cleaned_row_invariant tipChunk
    ⟨cols5 ++ ["tip_amount"],
      [[.numv 12, .numv 1, .numv 1, .dtv 202101010100, .dtv 202101010105, .numv (-3)]]⟩
    rfl _ (by decide)

/-- C10: a chunk lacking any of pickup_datetime, dropoff_datetime,
fare_amount, trip_distance or passenger_count under exactly those names
makes `clean_chunk` raise (KeyError) instead of returning a cleaned
chunk — the datetime drop and the sign filter index those columns
unconditionally, before any renaming of variant names happens. -/
theorem clean_chunk_missing_column_raises (df : Frame)
    (h : "pickup_datetime" ∉ df.cols ∨ "dropoff_datetime" ∉ df.cols ∨
      "fare_amount" ∉ df.cols ∨ "trip_distance" ∉ df.cols ∨
      "passenger_count" ∉ df.cols) :
    ∃ e, clean_chunk df = .error e := by
  cases hres : clean_chunk df with
  | error e => exact ⟨e, rfl⟩
  | ok df' =>
    exfalso
    obtain ⟨fi, ti, pci, hpu, hdo, hfi, hti, hpci, -, -⟩ :=
      clean_chunk_ok_destruct df df' hres
    have hfa : "fare_amount" ∈ df.cols :=
      (idxOf?_isSome_iff _ _).1 (by rw [hfi]; rfl)
    have htd : "trip_distance" ∈ df.cols :=
      (idxOf?_isSome_iff _ _).1 (by rw [hti]; rfl)
    have hpc : "passenger_count" ∈ df.cols :=
      (idxOf?_isSome_iff _ _).1 (by rw [hpci]; rfl)
    rcases h with h | h | h | h | h <;> contradiction

/-- C10 witness: the spec's three-row scenario chunk, which has no
passenger_count column, makes `clean_chunk` raise. -/
theorem clean_chunk_missing_column_raises_witness :
    ∃ e, clean_chunk c4origChunk = .error e :=
  clean_chunk_missing_column_raises c4origChunk (by decide)

theorem insertLoop_nil (failsAt : Nat → Bool) (bs : Nat) (fuel j : Nat) :
    insertLoop failsAt bs fuel j [] = ⟨0, [], [], true⟩ := by
  cases fuel <;> rfl

theorem insertLoop_spec (failsAt : Nat → Bool) (bs : Nat) : ∀ (fuel j : Nat) (recs : List Rec),
    (insertLoop failsAt bs fuel j recs).committed.length =
      (insertLoop failsAt bs fuel j recs).inserted ∧
    (insertLoop failsAt bs fuel j recs).inserted =
      (insertLoop failsAt bs fuel j recs).commits.sum ∧
    (insertLoop failsAt bs fuel j recs).committed =
      recs.take (insertLoop failsAt bs fuel j recs).inserted := by
  intro fuel
  induction fuel with
  | zero =>
    intro j recs
    cases recs <;> simp [insertLoop]
  | succ n ih =>
    intro j recs
    cases recs with
    | nil => simp [insertLoop]
    | cons r rs =>
      by_cases hf : failsAt j
      · simp [insertLoop, hf]
      · obtain ⟨ih1, ih2, ih3⟩ := ih (j + bs) ((r :: rs).drop bs)
        simp only [insertLoop, hf, if_false, Bool.false_eq_true]
        refine ⟨?_, ?_, ?_⟩
        · simp [ih1]
        · simp [ih2]
        · rw [ih3]
          by_cases hbl : bs ≤ (r :: rs).length
          · have hlen : ((r :: rs).take bs).length = bs := by
              rw [List.length_take]
              omega
            rw [hlen, ← List.take_add]
          · have hdrop : (r :: rs).drop bs = [] := by
              apply List.drop_eq_nil_of_le
              omega
            have htake : (r :: rs).take bs = r :: rs := by
              apply List.take_of_length_le
              omega
            rw [hdrop, htake]
            simp [insertLoop_nil]

theorem insertLoop_closed_of_no_fail (failsAt : Nat → Bool) (bs : Nat)
    (hbs : 0 < bs) (hf : ∀ j, failsAt j = false) :
    ∀ (fuel : Nat) (recs : List Rec) (j : Nat), recs.length ≤ fuel →
      (insertLoop failsAt bs fuel j recs).closed = true := by
  intro fuel
  induction fuel with
  | zero =>
    intro recs j hlen
    have : recs = [] := List.eq_nil_of_length_eq_zero (by omega)
    subst this
    simp [insertLoop]
  | succ n ih =>
    intro recs j hlen
    cases recs with
    | nil => simp [insertLoop]
    | cons r rs =>
      simp only [insertLoop, hf j, if_false, Bool.false_eq_true]
      apply ih
      rw [List.length_drop]
      simp only [List.length_cons] at hlen ⊢
      omega

theorem insertBatches_spec (failsAt : Nat → Bool) (bs : Nat) (recs : List Rec) :
    (insertBatches failsAt bs recs).committed.length =
      (insertBatches failsAt bs recs).inserted ∧
    (insertBatches failsAt bs recs).inserted =
      (insertBatches failsAt bs recs).commits.sum ∧
    (insertBatches failsAt bs recs).committed =
      recs.take (insertBatches failsAt bs recs).inserted :=
  insertLoop_spec failsAt bs recs.length 0 recs

theorem commitSizes_append (a b : List Ev) :
    commitSizes (a ++ b) = commitSizes a ++ commitSizes b := by
  unfold commitSizes
  rw [List.filterMap_append]

theorem commitSizes_map_commit (i : Nat) (cs : List Nat) :
    commitSizes (cs.map (Ev.commit i)) = cs := by
  induction cs with
  | nil => rfl
  | cons c cs ih => simp [commitSizes, List.filterMap_cons] at ih ⊢; exact ih

theorem commitSizes_events (i : Nat) (cs : List Nat) (tail : List Ev)
    (htail : commitSizes tail = []) :
    commitSizes (Ev.connOpen i :: (cs.map (Ev.commit i) ++ tail)) = cs := by
  have h1 : commitSizes (Ev.connOpen i :: (cs.map (Ev.commit i) ++ tail)) =
      commitSizes (cs.map (Ev.commit i) ++ tail) := rfl
  rw [h1, commitSizes_append, commitSizes_map_commit, htail, List.append_nil]

theorem processChunk_spec (failsAt : Nat → Bool) (bs i : Nat) (c : Frame)
    (out : ChunkOut) (h : processChunk failsAt bs i c = .ok out) :
    out.newRecs.length = out.inserted ∧
    (commitSizes out.events).sum = out.inserted := by
  unfold processChunk at h
  dsimp only at h
  cases hc : clean_chunk c with
  | error e => rw [hc] at h; simp [Bind.bind, Except.bind] at h
  | ok cleaned =>
    rw [hc] at h
    simp only [Bind.bind, Except.bind] at h
    by_cases hlen : cleaned.rows.length = 0
    · rw [if_pos hlen] at h
      simp only [Except.ok.injEq] at h
      rw [← h]
      simp [commitSizes]
    · rw [if_neg hlen] at h
      simp only [Except.ok.injEq] at h
      rw [← h]
      obtain ⟨h1, h2, -⟩ := insertBatches_spec failsAt bs
        ((schema_map cleaned).rows.map (fun r => (schema_map cleaned).cols.zip r))
      refine ⟨h1, ?_⟩
      show (commitSizes (Ev.connOpen i :: (_ ++ _))).sum = _
      rw [commitSizes_events i _ _ (by split <;> rfl)]
      exact h2.symm

theorem chunkGo_spec (fails : Nat → Nat → Bool) (bs : Nat) :
    ∀ (chunks : List Frame) (i : Nat) (total : Nat),
      (chunkGo fails bs i chunks).result = .ok total →
      total = (commitSizes (chunkGo fails bs i chunks).events).sum ∧
      (chunkGo fails bs i chunks).table.length = total := by
  intro chunks
  induction chunks with
  | nil =>
    intro i total h
    simp only [chunkGo, Except.ok.injEq] at h
    simp [chunkGo, commitSizes, ← h]
  | cons c cs ih =>
    intro i total h
    cases hp : processChunk (fails i) bs i c with
    | error e =>
      simp only [chunkGo, hp] at h
      simp at h
    | ok out =>
      simp only [chunkGo, hp] at h ⊢
      cases hrest : (chunkGo fails bs (i + 1) cs).result with
      | error e => rw [hrest] at h; simp [Except.map] at h
      | ok t' =>
        rw [hrest] at h
        simp only [Except.map, Except.ok.injEq] at h
        obtain ⟨ih1, ih2⟩ := ih (i + 1) t' hrest
        obtain ⟨hp1, hp2⟩ := processChunk_spec (fails i) bs i c out hp
        constructor
        · rw [commitSizes_append, List.sum_append, hp2, ← ih1]; omega
        · rw [List.length_append, hp1, ih2]; omega

/-- C2: the total returned by the loader equals the sum over all chunks
of the sizes of the sub-batches whose transaction committed, and the
destination table holds exactly that many rows — rows of a failed
sub-batch contribute to neither. -/
theorem total_inserted_eq_sum_committed (fails : Nat → Nat → Bool) (bs : Nat)
    (chunks : List Frame) (total : Nat)
    (h : (chunk_and_insert fails bs chunks).result = .ok total) :
    total = (commitSizes (chunk_and_insert fails bs chunks).events).sum ∧
    (chunk_and_insert fails bs chunks).table.length = total :=
  chunkGo_spec fails bs chunks 0 total h

/-- C2 witness: the scenario chunk loads one row through one committed
sub-batch and the total is that one commit's size. -/
theorem total_inserted_eq_sum_committed_witness :
    1 = (commitSizes (chunk_and_insert noFail 5000 [c4fixedChunk]).events).sum ∧
    (chunk_and_insert noFail 5000 [c4fixedChunk]).table.length = 1 :=
  total_inserted_eq_sum_committed noFail 5000 [c4fixedChunk] 1 rfl

/-- C1 counterexample: with sub-batch size 1 and a two-record chunk where
the store rejects only the sub-batch at offset 0, the second sub-batch is
accepted by the store (failFirst 0 1 = false) yet it is never attempted:
the run's total is 0 and no commit of size 1 ever happens, contradicting
the claim that sub-batches after the failing one are still attempted and
counted. -/
theorem subbatch_after_failure_not_attempted_cex :
    failFirst 0 1 = false ∧
    (chunk_and_insert failFirst 1 [twoRowChunk]).result = .ok 0 ∧
    Ev.commit 0 1 ∉ (chunk_and_insert failFirst 1 [twoRowChunk]).events := by
  refine ⟨rfl, rfl, ?_⟩
  decide

/-- C1 (amended): when a sub-batch insert fails, that sub-batch is rolled
back and the whole remainder of the chunk is abandoned — a failure at the
first sub-batch leaves nothing of the chunk committed, and in general the
committed records are exactly the first `inserted` records, a prefix
ending before the failed sub-batch; the run then continues with the next
chunk, counting the rows committed before the failure. -/
theorem subbatch_failure_aborts_chunk :
    (∀ (failsAt : Nat → Bool) (bs : Nat) (recs : List Rec),
      recs ≠ [] → failsAt 0 = true →
      insertBatches failsAt bs recs = ⟨0, [], [], false⟩) ∧
    (∀ (failsAt : Nat → Bool) (bs : Nat) (recs : List Rec),
      (insertBatches failsAt bs recs).committed =
        recs.take (insertBatches failsAt bs recs).inserted) ∧
    (∀ (fails : Nat → Nat → Bool) (bs i : Nat) (c : Frame) (cs : List Frame)
      (out : ChunkOut), processChunk (fails i) bs i c = .ok out →
      chunkGo fails bs i (c :: cs) =
        ⟨((chunkGo fails bs (i + 1) cs).result).map (fun t => out.inserted + t),
         out.newRecs ++ (chunkGo fails bs (i + 1) cs).table,
         out.events ++ (chunkGo fails bs (i + 1) cs).events⟩) := by
  refine ⟨?_, ?_, ?_⟩
  · intro failsAt bs recs hne hf
    cases recs with
    | nil => exact absurd rfl hne
    | cons r rs => simp [insertBatches, insertLoop, hf]
  · intro failsAt bs recs
    exact (insertBatches_spec failsAt bs recs).2.2
  · intro fails bs i c cs out h
    simp only [chunkGo, h]

/-- C1 (amended) witness: the three parts evaluated at concrete inputs —
a store rejecting everything leaves an empty-committed, unclosed outcome;
the committed records of a one-record run are the taken prefix; a chunk
whose insert failed still hands control to the next chunk. -/
theorem subbatch_failure_aborts_chunk_witness :
    insertBatches (fun _ => true) 5000 [[("vendor_id", Cell.numv 1)]] =
      ⟨0, [], [], false⟩ ∧
    (insertBatches failAt0 1 [[("vendor_id", Cell.numv 1)]]).committed =
      [[("vendor_id", Cell.numv 1)]].take
        (insertBatches failAt0 1 [[("vendor_id", Cell.numv 1)]]).inserted ∧
    chunkGo failAll 5000 0 [twoRowChunk] =
      ⟨((chunkGo failAll 5000 1 []).result).map
          (fun t => (⟨0, [], [.connOpen 0, .insertError 0, .rollback 0]⟩ : ChunkOut).inserted + t),
       (⟨0, [], [.connOpen 0, .insertError 0, .rollback 0]⟩ : ChunkOut).newRecs ++
         (chunkGo failAll 5000 1 []).table,
       (⟨0, [], [.connOpen 0, .insertError 0, .rollback 0]⟩ : ChunkOut).events ++
         (chunkGo failAll 5000 1 []).events⟩ :=
  ⟨subbatch_failure_aborts_chunk.1 (fun _ => true) 5000 _ (by decide) rfl,
   subbatch_failure_aborts_chunk.2.1 failAt0 1 _,
   subbatch_failure_aborts_chunk.2.2 failAll 5000 0 twoRowChunk [] _ rfl⟩

/-- C4 counterexample: the spec's three-row scenario chunk has no
passenger_count column, so cleaning raises KeyError and the run aborts
with that exception — it does not return cleaned_count = 1 and does not
insert a row. -/
theorem scenario_chunk_raises_cex :
    clean_chunk c4origChunk = .error "KeyError: passenger_count" ∧
    (chunk_and_insert noFail 5000 [c4origChunk]).result =
      .error "KeyError: passenger_count" :=
  ⟨rfl, rfl⟩

/-- C4 (amended): for the scenario chunk extended with a passenger_count
column (value 1 in every row), cleaning keeps exactly the third row
(cleaned_count = 1) and the loader inserts 1 row after one successful
sub-batch. -/
theorem scenario_chunk_with_passenger_count :
    clean_chunk c4fixedChunk = Except.ok ⟨cols5,
      [[.numv 12, .numv 1, .numv 1, .dtv 202101010100, .dtv 202101010105]]⟩ ∧
    (chunk_and_insert noFail 5000 [c4fixedChunk]).result = .ok 1 :=
  ⟨rfl, rfl⟩

/-- C5 counterexample: a chunk carrying its vendor identifier under the
known variant name 'VendorID' loses that column entirely — the allow-list
selection runs before the vendor rename and 'VendorID' is not in the
allow-list, so no 'vendor_id' column appears in the mapped output. -/
theorem vendorID_variant_dropped_cex :
    "VendorID" ∈ vendorChunk.cols ∧
    "vendor_id" ∉ (schema_map vendorChunk).cols ∧
    (schema_map vendorChunk).cols = [] := by
  refine ⟨by decide, by decide, rfl⟩

/-- C5 (amended): the schema-mapped frame contains only allow-listed
columns under their canonical names, with unknown source columns silently
dropped; the lowercase 'vendorid' variant is renamed to 'vendor_id', but
the 'VendorID' and 'vendor' variants are dropped by the allow-list
selection that precedes the rename and never reach the output. -/
theorem schema_map_allowlist (df : Frame) :
    (∀ c ∈ (schema_map df).cols, c ∈ canonicalAllowed) ∧
    ("vendorid" ∈ df.cols → "vendor_id" ∈ (schema_map df).cols) := by
  constructor
  · intro c hc
    unfold schema_map renameCols Frame.select at hc
    dsimp only at hc
    rw [List.mem_map] at hc
    obtain ⟨c0, hc0, rfl⟩ := hc
    rw [List.mem_filter] at hc0
    obtain ⟨-, hc0a⟩ := hc0
    have hmem : c0 ∈ allowed := List.mem_of_elem_eq_true hc0a
    have hall : ∀ c1 ∈ allowed, ((vendor_map.lookup c1).getD c1) ∈ canonicalAllowed := by
      decide
    exact hall c0 hmem
  · intro hv
    unfold schema_map renameCols Frame.select
    dsimp only
    rw [List.mem_map]
    refine ⟨"vendorid", ?_, by decide⟩
    rw [List.mem_filter]
    refine ⟨?_, by decide⟩
    rw [List.mem_map]
    exact ⟨"vendorid", hv, by decide⟩

/-- C5 (amended) witness: the allow-list property and the 'vendorid'
rename evaluated on a concrete chunk with a lowercase vendorid column. -/
theorem schema_map_allowlist_witness :
    (∀ c ∈ (schema_map vendoridChunk).cols, c ∈ canonicalAllowed) ∧
    "vendor_id" ∈ (schema_map vendoridChunk).cols :=
  ⟨(schema_map_allowlist vendoridChunk).1,
   (schema_map_allowlist vendoridChunk).2 (by decide)⟩

/-- C6: a chunk whose cleaned result is empty is skipped — the loader is
never invoked for it, a skip log line is emitted, no error is raised, and
the run continues with the next chunk with its total and table exactly
those of the remaining chunks. -/
theorem empty_cleaned_chunk_skipped (fails : Nat → Nat → Bool) (bs i : Nat)
    (c d : Frame) (cs : List Frame)
    (h1 : clean_chunk c = .ok d) (h2 : d.rows = []) :
    chunkGo fails bs i (c :: cs) =
      ⟨(chunkGo fails bs (i + 1) cs).result,
       (chunkGo fails bs (i + 1) cs).table,
       Ev.logSkip i :: (chunkGo fails bs (i + 1) cs).events⟩ := by
  have hp : processChunk (fails i) bs i c = .ok ⟨0, [], [.logSkip i]⟩ := by
    unfold processChunk
    dsimp only
    rw [h1]
    simp [Bind.bind, Except.bind, h2]
  simp only [chunkGo, hp]
  have hm : ((chunkGo fails bs (i + 1) cs).result).map
      (fun t => (⟨0, [], [Ev.logSkip i]⟩ : ChunkOut).inserted + t) =
      (chunkGo fails bs (i + 1) cs).result := by
    cases (chunkGo fails bs (i + 1) cs).result <;> simp [Except.map]
  rw [hm]
  rfl

/-- C6 witness: a chunk cleaning to empty followed by a normal chunk —
the run result, table and counts are those of the remaining chunk alone,
plus the skip log line. -/
theorem empty_cleaned_chunk_skipped_witness :
    chunkGo noFail 5000 0 [negFareChunk, twoRowChunk] =
      ⟨(chunkGo noFail 5000 1 [twoRowChunk]).result,
       (chunkGo noFail 5000 1 [twoRowChunk]).table,
       Ev.logSkip 0 :: (chunkGo noFail 5000 1 [twoRowChunk]).events⟩ :=
  empty_cleaned_chunk_skipped noFail 5000 0 negFareChunk ⟨cols5, []⟩ [twoRowChunk]
    rfl rfl

/-- C7 counterexample: with one successfully loaded chunk, a failing
count query makes the whole run end in that error — the exception
propagates uncaught out of main instead of being reported as a warning —
although the two committed rows do remain in the table. -/
theorem verification_error_fatal_cex :
    (mainRun noFail 5000 [twoRowChunk] (Except.error "query failed")
      (Except.ok [])).result = .error "query failed" ∧
    (mainRun noFail 5000 [twoRowChunk] (Except.error "query failed")
      (Except.ok [])).table = (chunk_and_insert noFail 5000 [twoRowChunk]).table ∧
    (chunk_and_insert noFail 5000 [twoRowChunk]).result = .ok 2 :=
  ⟨rfl, rfl, rfl⟩

/-- C7 (amended): when the load succeeds and a verification query errors,
the error propagates as an uncaught exception that terminates the run
(not a recovered warning), while the rows already committed to the
destination table are unaffected — the final table is exactly the
loader's table, with no rollback. -/
theorem verification_error_propagates (fails : Nat → Nat → Bool) (bs : Nat)
    (chunks : List Frame) (countQ : Except String Nat)
    (aggQ : Except String (List (Nat × Int))) (e : String) (total : Nat)
    (hrun : (chunk_and_insert fails bs chunks).result = .ok total)
    (hv : verify_counts_and_aggregates countQ aggQ = .error e) :
    (mainRun fails bs chunks countQ aggQ).result = .error e ∧
    (mainRun fails bs chunks countQ aggQ).table =
      (chunk_and_insert fails bs chunks).table := by
  unfold mainRun
  dsimp only
  rw [hrun, hv]
  exact ⟨rfl, rfl⟩

/-- C7 (amended) witness: the propagation fact evaluated on a concrete
run of one chunk and a failing count query. -/
theorem verification_error_propagates_witness :
    (mainRun noFail 5000 [twoRowChunk] (Except.error "boom")
      (Except.ok [])).result = .error "boom" ∧
    (mainRun noFail 5000 [twoRowChunk] (Except.error "boom")
      (Except.ok [])).table = (chunk_and_insert noFail 5000 [twoRowChunk]).table :=
  verification_error_propagates noFail 5000 [twoRowChunk] (Except.error "boom")
    (Except.ok []) "boom" 2 rfl rfl

/-- C9 counterexample: a chunk whose first sub-batch insert fails opens
its store connection but never closes it — the trace has the open event
and no close event, contradicting guaranteed release on every exit path. -/
theorem conn_not_closed_on_subbatch_failure_cex :
    Ev.connOpen 0 ∈ (chunk_and_insert failAll 5000 [twoRowChunk]).events ∧
    Ev.connClose 0 ∉ (chunk_and_insert failAll 5000 [twoRowChunk]).events := by
  decide

/-- C9 (amended): for a chunk that reaches insertion, the connection-open
event is always present, but the connection-close event occurs exactly
when every sub-batch committed; in particular it is present whenever the
store rejects nothing, and absent whenever some sub-batch failed (the
except path only rolls back, it never closes the connection). -/
theorem conn_closed_iff_all_subbatches_commit (failsAt : Nat → Bool)
    (bs i : Nat) (c d : Frame) (out : ChunkOut) (hbs : 0 < bs)
    (h1 : clean_chunk c = .ok d) (h2 : d.rows ≠ [])
    (h3 : processChunk failsAt bs i c = .ok out) :
    Ev.connOpen i ∈ out.events ∧
    ((insertBatches failsAt bs
        ((schema_map d).rows.map (fun r => (schema_map d).cols.zip r))).closed = true ↔
      Ev.connClose i ∈ out.events) ∧
    ((∀ j, failsAt j = false) → Ev.connClose i ∈ out.events) := by
  unfold processChunk at h3
  dsimp only at h3
  rw [h1] at h3
  simp only [Bind.bind, Except.bind] at h3
  rw [if_neg (by simpa [List.length_eq_zero] using h2)] at h3
  simp only [Except.ok.injEq] at h3
  subst h3
  constructor
  · exact List.mem_cons_self _ _
  · constructor
    · constructor
      · intro hcl
        simp [hcl, List.mem_append]
      · intro hmem
        by_contra hcl
        rw [Bool.not_eq_true] at hcl
        simp [hcl, List.mem_append, List.mem_map] at hmem
    · intro hall
      have hcl : (insertBatches failsAt bs
          ((schema_map d).rows.map (fun r => (schema_map d).cols.zip r))).closed = true :=
        insertLoop_closed_of_no_fail failsAt bs hbs hall _ _ 0 le_rfl
      simp [hcl, List.mem_append]

/-- C9 (amended) witness: the trace facts evaluated on the two-row chunk
with a store that rejects nothing. -/
theorem conn_closed_iff_all_subbatches_commit_witness :
    Ev.connOpen 0 ∈ twoRowOut.events ∧
    ((insertBatches (fun _ => false) 5000
        ((schema_map twoRowCleaned).rows.map
          (fun r => (schema_map twoRowCleaned).cols.zip r))).closed = true ↔
      Ev.connClose 0 ∈ twoRowOut.events) ∧
    ((∀ j, (fun _ : Nat => false) j = false) → Ev.connClose 0 ∈ twoRowOut.events) :=
  conn_closed_iff_all_subbatches_commit (fun _ => false) 5000 0 twoRowChunk
    twoRowCleaned twoRowOut (by decide) rfl (by decide) rfl

end DataIngestion
